import Mathlib

/-!
Shallow embedding of `main.py` (PySide6Tools).

The file under verification builds, in `IOHandler._connect_gui`, a dispatch
table from widget attribute names to accessor pairs, by exact runtime type
name over four Qt widget kinds (`QLineEdit`, `QComboBox`, `QSpinBox`,
`QCheckBox`), and exposes two bulk operations (`fields_to_inputs`,
`inputs_to_fields`) built in `IOHandler._get_connect_funcs` from the
per-entry worker `_connect_func`.

The external collaborators (the Qt widget accessors, Python `getattr` /
`setattr` on plain objects, and the builtin `eval`) are modelled explicitly:
widget state is a small inductive per supported kind, Python exceptions are
the inductive `PyError`, and `eval` is modelled on the literal forms that
actually reach it in this program (`configparser`-style strings such as
"True", "False", integer literals, quoted string literals).
-/

set_option autoImplicit false

/-- Python values that flow through the synchronizer: the read accessors of
the four supported widget kinds return `str`, `int` or `bool`, and the data
holder may hold any of these. -/
inductive Value where
  | str (s : String)
  | int (n : Int)
  | bool (b : Bool)
  deriving DecidableEq, Repr

/-- Python's `type(v).__name__` for the modelled values. -/
def Value.typeName : Value → String
  | .str _ => "str"
  | .int _ => "int"
  | .bool _ => "bool"

/-- State of a widget-container attribute. The four supported kinds carry the
state their accessors touch; `nonInput` stands for any other runtime object
(labels, layouts, plain data, ...). `comboBox` keeps its item list and the Qt
current index (`-1` when nothing is selected); `spinBox` keeps its value and
its range, as Qt does. -/
inductive WidgetState where
  | lineEdit (text : String)
  | comboBox (items : List String) (currentIndex : Int)
  | spinBox (value minimum maximum : Int)
  | checkBox (checked : Bool)
  | nonInput
  deriving DecidableEq, Repr

/-- A widget-container attribute: its runtime type name
(`type(item).__name__`) together with its state. -/
structure Attr where
  typeName : String
  state : WidgetState
  deriving DecidableEq, Repr

/-- Python exceptions that can be raised along the modelled code paths:
`typeError method argTypeName` is the PySide `TypeError` a setter raises on a
representation mismatch (its message carries the method and the unexpected
argument type); `attributeError objTypeName attrName` is Python's
`AttributeError` (its message carries the object's type and the missing
attribute name); `nameError` models `eval` failing on a non-literal string;
`indexError` is `key[0]` on an empty attribute name. -/
inductive PyError where
  | typeError (method : String) (argType : String)
  | attributeError (objType : String) (attr : String)
  | nameError (name : String)
  | indexError
  deriving DecidableEq, Repr

/-- Python's `isinstance(e, TypeError)`: the discrimination performed by the
`except TypeError` clause in `_connect_func`. -/
def PyError.isTypeError : PyError → Bool
  | .typeError _ _ => true
  | _ => false

/-- Whether the string `s` occurs among the string components of the
exception (`True` iff the exception's payload names `s`). -/
def PyError.mentionsB : PyError → String → Bool
  | .typeError m t, s => m = s || t = s
  | .attributeError o a, s => o = s || a = s
  | .nameError n, s => n = s
  | .indexError, _ => false

instance exceptDecEq {ε α : Type} [DecidableEq ε] [DecidableEq α] :
    DecidableEq (Except ε α) := fun x y =>
  match x, y with
  | .ok a, .ok b =>
      if h : a = b then .isTrue (by rw [h])
      else .isFalse (by intro hc; cases hc; exact h rfl)
  | .error a, .error b =>
      if h : a = b then .isTrue (by rw [h])
      else .isFalse (by intro hc; cases hc; exact h rfl)
  | .ok _, .error _ => .isFalse (by intro hc; cases hc)
  | .error _, .ok _ => .isFalse (by intro hc; cases hc)

/-- The four supported widget kinds of `IOHandler.input_types`. -/
inductive Kind where
  | qLineEdit
  | qComboBox
  | qSpinBox
  | qCheckBox
  deriving DecidableEq, Repr

/-- The runtime class name each kind is matched against
(the keys of `IOHandler.input_types`). -/
def Kind.className : Kind → String
  | .qLineEdit => "QLineEdit"
  | .qComboBox => "QComboBox"
  | .qSpinBox => "QSpinBox"
  | .qCheckBox => "QCheckBox"

/-- The read-accessor name of each kind
(first component of `IOHandler.input_types[k]`). -/
def Kind.getMethod : Kind → String
  | .qLineEdit => "text"
  | .qComboBox => "currentText"
  | .qSpinBox => "value"
  | .qCheckBox => "isChecked"

/-- The write-accessor name of each kind
(second component of `IOHandler.input_types[k]`). -/
def Kind.setMethod : Kind → String
  | .qLineEdit => "setText"
  | .qComboBox => "setCurrentText"
  | .qSpinBox => "setValue"
  | .qCheckBox => "setChecked"

/-- Whether the object's state actually is of the given kind, i.e. whether
the object carries that kind's accessor methods. -/
def kindMatchesB : Kind → WidgetState → Bool
  | .qLineEdit, .lineEdit _ => true
  | .qComboBox, .comboBox _ _ => true
  | .qSpinBox, .spinBox _ _ _ => true
  | .qCheckBox, .checkBox _ => true
  | _, _ => false

/-- The internal Qt invariant of a widget's state: a `QSpinBox` always keeps
`minimum <= value <= maximum` (its setters clamp). -/
def WidgetState.soundStateB : WidgetState → Bool
  | .spinBox v lo hi => decide (lo ≤ v) && decide (v ≤ hi)
  | _ => true

/-- An attribute is sound when its runtime type name does not lie: if the
name is one of the four supported class names then the state is of that kind,
and the state satisfies its internal Qt invariant. A strict subclass of a
supported kind carries a different type name, so it is unconstrained here. -/
def Attr.soundB (a : Attr) : Bool :=
  (a.typeName != "QLineEdit" || kindMatchesB .qLineEdit a.state) &&
  (a.typeName != "QComboBox" || kindMatchesB .qComboBox a.state) &&
  (a.typeName != "QSpinBox" || kindMatchesB .qSpinBox a.state) &&
  (a.typeName != "QCheckBox" || kindMatchesB .qCheckBox a.state) &&
  a.state.soundStateB

/-- The widget container: `gui.__dict__` as an insertion-ordered association
list from attribute name to attribute. -/
abbrev Gui := List (String × Attr)

/-- The data holder (`inputs`): a plain object's `__dict__`, an
insertion-ordered association list from attribute name to value. -/
abbrev Inputs := List (String × Value)

/-- The accessor table `func_dict`: each entry stores the widget's name and
the kind whose accessor pair the stored `connect_func` closure was
specialized with (the stored widget reference is recovered from the
container by name, names being unique attribute keys). -/
abbrev FuncDict := List (String × Kind)

/-- Association-list lookup, the model of `getattr`-style access by name. -/
def lookupA {α : Type} : List (String × α) → String → Option α
  | [], _ => none
  | (k, v) :: rest, key => if k = key then some v else lookupA rest key

/-- Association-list store, the model of `setattr`-style update by name:
overwrite the first binding of the key, or append a fresh binding. -/
def setA {α : Type} : List (String × α) → String → α → List (String × α)
  | [], key, v => [(key, v)]
  | (k, w) :: rest, key, v =>
      if k = key then (key, v) :: rest else (k, w) :: setA rest key v

/-- Model of `getattr(inputs, k)`: returns the stored value or raises
`AttributeError` naming the attribute (`inputs` defaults to an instance of
the local class `Inputs` from `IOHandler.__init__`). -/
def getattrE (inputs : Inputs) (k : String) : Except PyError Value :=
  match lookupA inputs k with
  | some v => .ok v
  | none => .error (.attributeError "Inputs" k)

/-- The quote character, `chr(39)`. -/
def quoteChar : Char := Char.ofNat 39

/-- Wrap a string in single quotes, producing a Python string literal. -/
def quoted (s : String) : String := ⟨quoteChar :: (s.data ++ [quoteChar])⟩

/-- Numeric value of a decimal digit character, if it is one. -/
def digitVal? (c : Char) : Option Nat :=
  if c.isDigit then some (c.toNat - 48) else none

/-- Parse a nonempty all-digit character list as a natural number. -/
def digitsToNat? (l : List Char) : Option Nat :=
  if l = [] then none
  else l.foldl (fun acc c =>
    match acc, digitVal? c with
    | some n, some d => some (n * 10 + d)
    | _, _ => none) (some 0)

/-- Parse a Python integer literal with optional leading minus sign. -/
def parseIntLit (s : String) : Option Int :=
  match s.data with
  | '-' :: rest => (digitsToNat? rest).map (fun n => -(n : Int))
  | l => (digitsToNat? l).map (fun n => (n : Int))

/-- Strip a matching pair of single quotes from a string, if present. -/
def unquote (s : String) : Option String :=
  match s.data with
  | [] => none
  | c :: rest =>
      if c = quoteChar ∧ rest.getLast? = some quoteChar then some ⟨rest.dropLast⟩
      else none

/-- Model of the Python builtin `eval` restricted to the literal forms that
reach it in `_connect_func` (values stringified by `configparser`): the
boolean literals, integer literals, and quoted string literals; any other
string is modelled as an `eval` failure (`NameError` / `SyntaxError`), and a
non-string argument raises `TypeError` as `eval` requires a string. -/
def pyEval : Value → Except PyError Value
  | .str s =>
      if s = "True" then .ok (.bool true)
      else if s = "False" then .ok (.bool false)
      else
        match parseIntLit s with
        | some n => .ok (.int n)
        | none =>
            match unquote s with
            | some inner => .ok (.str inner)
            | none => .error (.nameError s)
  | v => .error (.typeError "eval" v.typeName)

/-- Qt's `QComboBox.currentText`: when the current index denotes an item,
returns that item's text, and the empty string otherwise. -/
def currentTextOf (items : List String) (idx : Int) : String :=
  if 0 ≤ idx then items.getD idx.toNat "" else ""

/-- Qt's `QComboBox.findText`: index of the first exactly-matching item. -/
def findTextIdx : List String → String → Option Nat
  | [], _ => none
  | x :: xs, s => if x = s then some 0 else (findTextIdx xs s).map (· + 1)

/-- Qt's `qBound(lo, n, hi)`, the clamping `QSpinBox.setValue` performs. -/
def qBound (lo n hi : Int) : Int := max lo (min n hi)

/-- Model of `getattr(item, get_method)()`: the read accessor of the given
kind applied to the attribute. If the object is not of that kind it lacks the
method and Python raises `AttributeError` naming the object's type and the
method (unreachable for table entries, whose type name matched the kind). -/
def getV (kind : Kind) (a : Attr) : Except PyError Value :=
  match kind, a.state with
  | .qLineEdit, .lineEdit t => .ok (.str t)
  | .qComboBox, .comboBox items idx => .ok (.str (currentTextOf items idx))
  | .qSpinBox, .spinBox v _ _ => .ok (.int v)
  | .qCheckBox, .checkBox b => .ok (.bool b)
  | k, _ => .error (.attributeError a.typeName k.getMethod)

/-- Model of `getattr(item, set_method)(w)`: the write accessor of the given
kind applied to the attribute with argument `w`, returning the widget's new
state. PySide setters are strictly typed and raise `TypeError` (naming the
method and the unexpected argument type) on a representation mismatch;
`QComboBox.setCurrentText` selects the first exactly-matching item and does
nothing when the text is absent; `QSpinBox.setValue` clamps to the range and,
`bool` being an `int` in Python, accepts booleans as 0 / 1. -/
def setV (kind : Kind) (a : Attr) (w : Value) : Except PyError WidgetState :=
  match kind, a.state, w with
  | .qLineEdit, .lineEdit _, .str s => .ok (.lineEdit s)
  | .qLineEdit, .lineEdit _, w => .error (.typeError "setText" w.typeName)
  | .qComboBox, .comboBox items idx, .str s =>
      (match findTextIdx items s with
       | some j => .ok (.comboBox items (Int.ofNat j))
       | none => .ok (.comboBox items idx))
  | .qComboBox, .comboBox _ _, w => .error (.typeError "setCurrentText" w.typeName)
  | .qSpinBox, .spinBox _ lo hi, .int n => .ok (.spinBox (qBound lo n hi) lo hi)
  | .qSpinBox, .spinBox _ lo hi, .bool b =>
      .ok (.spinBox (qBound lo (if b then 1 else 0) hi) lo hi)
  | .qSpinBox, .spinBox _ _ _, w => .error (.typeError "setValue" w.typeName)
  | .qCheckBox, .checkBox _, .bool b => .ok (.checkBox b)
  | .qCheckBox, .checkBox _, w => .error (.typeError "setChecked" w.typeName)
  | k, _, _ => .error (.attributeError a.typeName k.setMethod)

/-- The body of the `try` block of `_connect_func` for `reverse=True`:
`getattr(item_arg, set_method)(getattr(inputs, key_arg))` in evaluation
order — fetch the bound setter (raising `AttributeError` if the object lacks
it), read the data-holder attribute, call the setter. -/
def directWrite (keyArg : String) (kind : Kind) (inputs : Inputs) (a : Attr) :
    Except PyError WidgetState :=
  if kindMatchesB kind a.state then do
    let v ← getattrE inputs keyArg
    setV kind a v
  else .error (.attributeError a.typeName kind.setMethod)

/-- The body of the `except TypeError` handler of `_connect_func`:
`getattr(item_arg, set_method)(eval(getattr(inputs, key_arg)))` in
evaluation order — fetch the bound setter, re-read the data-holder
attribute, `eval` it, call the setter with the result. -/
def retryWrite (keyArg : String) (kind : Kind) (inputs : Inputs) (a : Attr) :
    Except PyError WidgetState :=
  if kindMatchesB kind a.state then do
    let v ← getattrE inputs keyArg
    let v2 ← pyEval v
    setV kind a v2
  else .error (.attributeError a.typeName kind.setMethod)

/-- The `reverse=False` branch of `_connect_func`:
`setattr(inputs, key_arg, getattr(item_arg, get_method)())` — the getter is
evaluated first, so on a getter failure no attribute is assigned. -/
def forwardStep (keyArg : String) (kind : Kind) (inputs : Inputs) (gui : Gui)
    (a : Attr) : Option PyError × Inputs × Gui :=
  match getV kind a with
  | .error e => (some e, inputs, gui)
  | .ok v => (none, setA inputs keyArg v, gui)

/-- The `reverse=True` branch of `_connect_func`: the `try` block performs
the direct write; an exception that is a `TypeError` triggers the
`except TypeError` handler (the single `eval` retry); any other exception
propagates unchanged. -/
def reverseStep (keyArg : String) (kind : Kind) (inputs : Inputs) (gui : Gui)
    (a : Attr) : Option PyError × Inputs × Gui :=
  match directWrite keyArg kind inputs a with
  | .ok st => (none, inputs, setA gui keyArg { a with state := st })
  | .error e =>
    if e.isTypeError then
      match retryWrite keyArg kind inputs a with
      | .ok st => (none, inputs, setA gui keyArg { a with state := st })
      | .error e2 => (some e2, inputs, gui)
    else (some e, inputs, gui)

/-- The worker `IOHandler._connect_gui._connect_func`, specialized by `_connect_gui` to
the accessor pair of the entry's kind. `reverse=False` copies the widget's
value onto the data holder; `reverse=True` writes the data-holder value into
the widget, retrying once through `eval` when the direct write raises
`TypeError`. The stored widget reference is the container's attribute of the
entry's name; an error leaves the states as they were at the raise point. -/
def _connect_func (reverse : Bool) (keyArg : String) (kind : Kind)
    (inputs : Inputs) (gui : Gui) : Option PyError × Inputs × Gui :=
  match lookupA gui keyArg with
  | none => (some (.nameError keyArg), inputs, gui)
  | some a =>
    match reverse with
    | false => forwardStep keyArg kind inputs gui a
    | true => reverseStep keyArg kind inputs gui a

/-- The predicate `IOHandler._connect_gui._check_type`:
`False if type(item_arg).__name__ != type_arg else True`. -/
def _check_type (typeArg : String) (itemTypeName : String) : Bool :=
  if itemTypeName != typeArg then false else true

/-- The `if check_type(...) / elif ...` chain of `_connect_gui`, deciding
which accessor pair (if any) the attribute's runtime type name selects. -/
def classifyName (t : String) : Option Kind :=
  if _check_type "QLineEdit" t then some .qLineEdit
  else if _check_type "QComboBox" t then some .qComboBox
  else if _check_type "QSpinBox" t then some .qSpinBox
  else if _check_type "QCheckBox" t then some .qCheckBox
  else none

/-- Construction, `IOHandler._connect_gui`: scan `gui.__dict__` in order; skip names whose
first character is the underscore (`key[0] == "_"`, which raises
`IndexError` on an empty name); skip attributes whose type name matches none
of the four kinds; record every remaining attribute under its name with its
kind's accessor pair. -/
def _connect_gui : Gui → Except PyError FuncDict
  | [] => .ok []
  | (key, item) :: rest =>
    match key.data with
    | [] => .error .indexError
    | c :: _ =>
      if c = '_' then _connect_gui rest
      else
        match classifyName item.typeName with
        | none => _connect_gui rest
        | some kind =>
          match _connect_gui rest with
          | .error e => .error e
          | .ok d => .ok ((key, kind) :: d)

/-- The list comprehensions of `IOHandler._get_connect_funcs`: call
`connect(reverse, key, item)` for every table entry in order; an uncaught
exception aborts the remaining calls, keeping the mutations made so far. -/
def runConnects (reverse : Bool) (d : FuncDict) (inputs : Inputs) (gui : Gui) :
    Option PyError × Inputs × Gui :=
  match d with
  | [] => (none, inputs, gui)
  | (k, kind) :: rest =>
    match _connect_func reverse k kind inputs gui with
    | (some e, i2, g2) => (some e, i2, g2)
    | (none, i2, g2) => runConnects reverse rest i2 g2

/-- Bulk operation `IOHandler.fields_to_inputs`: write every widget's value to the data
holder. -/
def fields_to_inputs (d : FuncDict) (inputs : Inputs) (gui : Gui) :
    Option PyError × Inputs × Gui :=
  runConnects false d inputs gui

/-- Bulk operation `IOHandler.inputs_to_fields`: write every data-holder value to its
widget. -/
def inputs_to_fields (d : FuncDict) (inputs : Inputs) (gui : Gui) :
    Option PyError × Inputs × Gui :=
  runConnects true d inputs gui

/-- The value a table entry's widget currently shows: read accessor of the
entry's kind applied to the container attribute of the entry's name. -/
def observedValue (gui : Gui) (k : String) (kind : Kind) :
    Option (Except PyError Value) :=
  (lookupA gui k).map (getV kind)

/-- A sample widget container holding one widget of each supported kind,
all carrying distinct values. -/
def guiSample : Gui :=
  [("name", ⟨"QLineEdit", .lineEdit "alice"⟩),
   ("choice", ⟨"QComboBox", .comboBox ["a", "b"] 1⟩),
   ("retries", ⟨"QSpinBox", .spinBox 3 0 99⟩),
   ("flag", ⟨"QCheckBox", .checkBox true⟩)]

/-- The accessor table `_connect_gui` builds for `guiSample`. -/
def dictSample : FuncDict :=
  [("name", .qLineEdit), ("choice", .qComboBox),
   ("retries", .qSpinBox), ("flag", .qCheckBox)]

theorem lookupA_setA_self {α : Type} (xs : List (String × α)) (k : String) (v : α) :
    lookupA (setA xs k v) k = some v := by
  induction xs with
  | nil => simp [setA, lookupA]
  | cons p rest ih =>
    obtain ⟨k0, w⟩ := p
    by_cases h : k0 = k
    · simp [setA, h, lookupA]
    · simp [setA, h, lookupA, ih]

theorem lookupA_setA_ne {α : Type} (xs : List (String × α)) {k k' : String} (v : α)
    (h : k' ≠ k) : lookupA (setA xs k v) k' = lookupA xs k' := by
  have hne : k ≠ k' := fun hh => h hh.symm
  induction xs with
  | nil =>
    show lookupA [(k, v)] k' = lookupA [] k'
    simp [lookupA, hne]
  | cons p rest ih =>
    obtain ⟨k0, w⟩ := p
    by_cases h0 : k0 = k
    · subst h0
      simp only [setA, if_pos rfl, lookupA]
      rw [if_neg hne, if_neg hne]
    · simp only [setA, if_neg h0, lookupA]
      by_cases h1 : k0 = k'
      · simp [h1]
      · simp [h1, ih]

theorem mem_of_lookupA {α : Type} {xs : List (String × α)} {k : String} {v : α}
    (h : lookupA xs k = some v) : (k, v) ∈ xs := by
  induction xs with
  | nil => simp [lookupA] at h
  | cons p rest ih =>
    obtain ⟨k0, w⟩ := p
    by_cases hk : k0 = k
    · subst hk
      simp [lookupA] at h
      subst h
      exact List.mem_cons_self _ _
    · simp [lookupA, hk] at h
      exact List.mem_cons_of_mem _ (ih h)

theorem lookupA_eq_some_of_mem {α : Type} {xs : List (String × α)}
    (hnd : (xs.map Prod.fst).Nodup) {k : String} {v : α} (hm : (k, v) ∈ xs) :
    lookupA xs k = some v := by
  induction xs with
  | nil => cases hm
  | cons p rest ih =>
    obtain ⟨k0, w⟩ := p
    simp only [List.map_cons, List.nodup_cons] at hnd
    rcases List.mem_cons.mp hm with h | h
    · obtain ⟨h1, h2⟩ := Prod.mk.injEq .. ▸ h.symm
      subst h1; subst h2
      simp [lookupA]
    · have hne : k0 ≠ k := by
        intro hk
        subst hk
        exact hnd.1 (List.mem_map_of_mem Prod.fst h)
      simp [lookupA, hne]
      exact ih hnd.2 h

theorem mem_unique_of_nodup_keys {α : Type} {xs : List (String × α)}
    (hnd : (xs.map Prod.fst).Nodup) {k : String} {v v' : α}
    (h1 : (k, v) ∈ xs) (h2 : (k, v') ∈ xs) : v = v' := by
  have e1 := lookupA_eq_some_of_mem hnd h1
  have e2 := lookupA_eq_some_of_mem hnd h2
  rw [e1] at e2
  exact Option.some.inj e2

theorem check_type_eq (typeArg itemTypeName : String) :
    _check_type typeArg itemTypeName = (itemTypeName == typeArg) := by
  unfold _check_type
  cases h : itemTypeName == typeArg <;> simp [bne, h]

theorem classifyName_eq_some_iff (t : String) (kind : Kind) :
    classifyName t = some kind ↔ t = kind.className := by
  constructor
  · intro h
    unfold classifyName at h
    simp only [check_type_eq] at h
    split_ifs at h with h1 h2 h3 h4 <;>
      simp_all [Kind.className, beq_iff_eq] <;> exact h.symm ▸ rfl
  · intro h
    subst h
    cases kind <;> decide

theorem classifyName_none_of_ne (t : String)
    (h1 : t ≠ "QLineEdit") (h2 : t ≠ "QComboBox")
    (h3 : t ≠ "QSpinBox") (h4 : t ≠ "QCheckBox") :
    classifyName t = none := by
  unfold classifyName
  simp only [check_type_eq]
  simp [h1, h2, h3, h4]

theorem connect_gui_cons_empty (key : String) (item : Attr) (rest : Gui)
    (hkd : key.data = []) :
    _connect_gui ((key, item) :: rest) = .error .indexError := by
  conv_lhs => rw [_connect_gui]
  rw [hkd]

theorem connect_gui_cons_eq (key : String) (item : Attr) (rest : Gui) {c : Char}
    {cs : List Char} (hkd : key.data = c :: cs) :
    _connect_gui ((key, item) :: rest) =
      (if c = '_' then _connect_gui rest
       else
         match classifyName item.typeName with
         | none => _connect_gui rest
         | some kind =>
           match _connect_gui rest with
           | .error e => .error e
           | .ok d => .ok ((key, kind) :: d)) := by
  conv_lhs => rw [_connect_gui]
  rw [hkd]

theorem connect_gui_mem {gui : Gui} {d : FuncDict} (h : _connect_gui gui = .ok d) :
    ∀ p ∈ d, ∃ a, (p.1, a) ∈ gui ∧ classifyName a.typeName = some p.2 := by
  induction gui generalizing d with
  | nil =>
    simp only [_connect_gui, Except.ok.injEq] at h
    subst h
    simp
  | cons q rest ih =>
    obtain ⟨key, item⟩ := q
    unfold _connect_gui at h
    cases hkd : key.data with
    | nil => rw [hkd] at h; cases h
    | cons c cs =>
      rw [hkd] at h
      by_cases hc : c = '_'
      · simp only [hc, if_true] at h
        intro p hp
        obtain ⟨a, hmem, hcl⟩ := ih h p hp
        exact ⟨a, List.mem_cons_of_mem _ hmem, hcl⟩
      · simp only [hc, if_false] at h
        cases hcl : classifyName item.typeName with
        | none =>
          rw [hcl] at h
          intro p hp
          obtain ⟨a, hmem, hcl'⟩ := ih h p hp
          exact ⟨a, List.mem_cons_of_mem _ hmem, hcl'⟩
        | some kind =>
          rw [hcl] at h
          cases hrec : _connect_gui rest with
          | error e => rw [hrec] at h; cases h
          | ok d' =>
            rw [hrec] at h
            simp only [Except.ok.injEq] at h
            subst h
            intro p hp
            rcases List.mem_cons.mp hp with hp | hp
            · subst hp
              exact ⟨item, List.mem_cons_self _ _, hcl⟩
            · obtain ⟨a, hmem, hcl'⟩ := ih hrec p hp
              exact ⟨a, List.mem_cons_of_mem _ hmem, hcl'⟩

theorem connect_gui_keys_sublist {gui : Gui} {d : FuncDict}
    (h : _connect_gui gui = .ok d) :
    List.Sublist (d.map Prod.fst) (gui.map Prod.fst) := by
  induction gui generalizing d with
  | nil =>
    simp only [_connect_gui, Except.ok.injEq] at h
    subst h
    simp
  | cons q rest ih =>
    obtain ⟨key, item⟩ := q
    unfold _connect_gui at h
    cases hkd : key.data with
    | nil => rw [hkd] at h; cases h
    | cons c cs =>
      rw [hkd] at h
      by_cases hc : c = '_'
      · simp only [hc, if_true] at h
        exact (ih h).cons key
      · simp only [hc, if_false] at h
        cases hcl : classifyName item.typeName with
        | none =>
          rw [hcl] at h
          exact (ih h).cons key
        | some kind =>
          rw [hcl] at h
          cases hrec : _connect_gui rest with
          | error e => rw [hrec] at h; cases h
          | ok d' =>
            rw [hrec] at h
            simp only [Except.ok.injEq] at h
            subst h
            exact (ih hrec).cons₂ key

theorem connect_gui_skip_middle (g₁ g₂ : Gui) (key : String) (a : Attr)
    (hne : key.data ≠ []) (hcl : classifyName a.typeName = none) :
    _connect_gui (g₁ ++ (key, a) :: g₂) = _connect_gui (g₁ ++ g₂) := by
  induction g₁ with
  | nil =>
    simp only [List.nil_append]
    cases hkd : key.data with
    | nil => exact absurd hkd hne
    | cons c cs =>
      rw [connect_gui_cons_eq key a g₂ hkd]
      by_cases hc : c = '_'
      · simp [hc]
      · simp [hc, hcl]
  | cons q rest ih =>
    obtain ⟨k0, a0⟩ := q
    simp only [List.cons_append]
    cases hkd0 : k0.data with
    | nil =>
      rw [connect_gui_cons_empty k0 a0 _ hkd0, connect_gui_cons_empty k0 a0 _ hkd0]
    | cons c cs =>
      rw [connect_gui_cons_eq k0 a0 _ hkd0, connect_gui_cons_eq k0 a0 _ hkd0, ih]

theorem getV_ok_of_matches {kind : Kind} {a : Attr}
    (h : kindMatchesB kind a.state = true) : ∃ v, getV kind a = .ok v := by
  obtain ⟨tn, st⟩ := a
  cases kind <;> cases st <;> first
    | exact ⟨_, rfl⟩
    | simp [kindMatchesB] at h

theorem findTextIdx_spec {items : List String} {s : String} {j : Nat}
    (h : findTextIdx items s = some j) :
    j < items.length ∧ items.getD j "" = s := by
  induction items generalizing j with
  | nil => simp [findTextIdx] at h
  | cons x xs ih =>
    by_cases hx : x = s
    · subst hx
      rw [findTextIdx, if_pos rfl] at h
      cases h
      exact ⟨Nat.succ_pos _, rfl⟩
    · rw [findTextIdx, if_neg hx] at h
      rcases Option.map_eq_some'.mp h with ⟨j0, hj0, hj⟩
      obtain ⟨hlt, hget⟩ := ih hj0
      subst hj
      exact ⟨Nat.succ_lt_succ hlt, hget⟩

theorem currentTextOf_ofNat (items : List String) (j : Nat) :
    currentTextOf items (Int.ofNat j) = items.getD j "" := by
  simp [currentTextOf, Int.ofNat_nonneg j]

theorem sound_matches {a : Attr} {kind : Kind} (hs : a.soundB = true)
    (hc : classifyName a.typeName = some kind) :
    kindMatchesB kind a.state = true ∧ a.state.soundStateB = true := by
  have hname := (classifyName_eq_some_iff _ _).1 hc
  simp only [Attr.soundB, Bool.and_eq_true, Bool.or_eq_true, bne_iff_ne, ne_eq,
    decide_eq_true_eq] at hs
  obtain ⟨⟨⟨⟨h1, h2⟩, h3⟩, h4⟩, h5⟩ := hs
  refine ⟨?_, h5⟩
  cases kind with
  | qLineEdit =>
    rcases h1 with h | h
    · exact absurd hname h
    · exact h
  | qComboBox =>
    rcases h2 with h | h
    · exact absurd hname h
    · exact h
  | qSpinBox =>
    rcases h3 with h | h
    · exact absurd hname h
    · exact h
  | qCheckBox =>
    rcases h4 with h | h
    · exact absurd hname h
    · exact h

theorem setV_getV_roundtrip {kind : Kind} {a : Attr}
    (hm : kindMatchesB kind a.state = true) (hs : a.state.soundStateB = true)
    {v : Value} (hv : getV kind a = .ok v) :
    ∃ st2, setV kind a v = .ok st2 ∧
      getV kind { a with state := st2 } = .ok v ∧
      kindMatchesB kind st2 = true ∧ st2.soundStateB = true := by
  obtain ⟨tn, st⟩ := a
  cases kind with
  | qLineEdit =>
    cases st <;> simp [kindMatchesB] at hm
    case lineEdit t =>
      simp only [getV, Except.ok.injEq] at hv
      subst hv
      exact ⟨.lineEdit t, rfl, rfl, rfl, rfl⟩
  | qComboBox =>
    cases st <;> simp [kindMatchesB] at hm
    case comboBox items idx =>
      simp only [getV, Except.ok.injEq] at hv
      subst hv
      cases hfind : findTextIdx items (currentTextOf items idx) with
      | some j =>
        obtain ⟨hlt, hget⟩ := findTextIdx_spec hfind
        refine ⟨.comboBox items (Int.ofNat j), ?_, ?_, rfl, rfl⟩
        · simp [setV, hfind]
        · simp only [getV, Except.ok.injEq, Value.str.injEq]
          rw [currentTextOf_ofNat]
          exact hget
      | none =>
        refine ⟨.comboBox items idx, ?_, rfl, rfl, rfl⟩
        simp [setV, hfind]
  | qSpinBox =>
    cases st <;> simp [kindMatchesB] at hm
    case spinBox val lo hi =>
      simp only [getV, Except.ok.injEq] at hv
      subst hv
      simp only [WidgetState.soundStateB, Bool.and_eq_true, decide_eq_true_eq] at hs
      have hb : qBound lo val hi = val := by
        unfold qBound
        rw [min_eq_left hs.2, max_eq_right hs.1]
      refine ⟨.spinBox val lo hi, ?_, rfl, rfl, ?_⟩
      · simp [setV, hb]
      · simp only [WidgetState.soundStateB, Bool.and_eq_true, decide_eq_true_eq]
        exact hs
  | qCheckBox =>
    cases st <;> simp [kindMatchesB] at hm
    case checkBox b =>
      simp only [getV, Except.ok.injEq] at hv
      subst hv
      exact ⟨.checkBox b, rfl, rfl, rfl, rfl⟩

theorem setV_error_shape {kind : Kind} {a : Attr} {w : Value} {e : PyError}
    (hm : kindMatchesB kind a.state = true) (h : setV kind a w = .error e) :
    e = .typeError kind.setMethod w.typeName := by
  obtain ⟨tn, st⟩ := a
  cases kind with
  | qLineEdit =>
    cases st <;> simp [kindMatchesB] at hm
    case lineEdit t =>
      cases w <;> simp_all [setV, Kind.setMethod, Value.typeName]
  | qComboBox =>
    cases st <;> simp [kindMatchesB] at hm
    case comboBox items idx =>
      cases w with
      | str s => cases hfind : findTextIdx items s <;> simp [setV, hfind] at h
      | int n => simp_all [setV, Kind.setMethod, Value.typeName]
      | bool b => simp_all [setV, Kind.setMethod, Value.typeName]
  | qSpinBox =>
    cases st <;> simp [kindMatchesB] at hm
    case spinBox val lo hi =>
      cases w <;> simp_all [setV, Kind.setMethod, Value.typeName]
  | qCheckBox =>
    cases st <;> simp [kindMatchesB] at hm
    case checkBox b =>
      cases w <;> simp_all [setV, Kind.setMethod, Value.typeName]

theorem triple_parts {A B C : Type} {x1 x2 : A} {y1 y2 : B} {z1 z2 : C}
    (h : (x1, y1, z1) = (x2, y2, z2)) : x1 = x2 ∧ y1 = y2 ∧ z1 = z2 := by
  cases h
  exact ⟨rfl, rfl, rfl⟩

theorem directWrite_eq {keyArg : String} {kind : Kind} {i : Inputs} {a : Attr}
    (hm : kindMatchesB kind a.state = true) :
    directWrite keyArg kind i a =
      (match lookupA i keyArg with
       | none => .error (.attributeError "Inputs" keyArg)
       | some v => setV kind a v) := by
  unfold directWrite getattrE
  rw [if_pos hm]
  cases hl : lookupA i keyArg <;> rfl

theorem retryWrite_eq {keyArg : String} {kind : Kind} {i : Inputs} {a : Attr}
    (hm : kindMatchesB kind a.state = true) :
    retryWrite keyArg kind i a =
      (match lookupA i keyArg with
       | none => .error (.attributeError "Inputs" keyArg)
       | some v =>
         match pyEval v with
         | .error e => .error e
         | .ok v2 => setV kind a v2) := by
  unfold retryWrite getattrE
  rw [if_pos hm]
  cases hl : lookupA i keyArg with
  | none => rfl
  | some v =>
    show Except.bind (pyEval v) (fun v2 => setV kind a v2) =
      (match pyEval v with
       | .error e => .error e
       | .ok v2 => setV kind a v2)
    cases he : pyEval v <;> rfl

theorem connect_func_false_eq {k : String} {kind : Kind} {i : Inputs} {g : Gui}
    {a : Attr} (hl : lookupA g k = some a) :
    _connect_func false k kind i g = forwardStep k kind i g a := by
  unfold _connect_func
  rw [hl]

theorem connect_func_true_eq {k : String} {kind : Kind} {i : Inputs} {g : Gui}
    {a : Attr} (hl : lookupA g k = some a) :
    _connect_func true k kind i g = reverseStep k kind i g a := by
  unfold _connect_func
  rw [hl]

theorem connect_func_false_ok {k : String} {kind : Kind} {i : Inputs} {g : Gui}
    {a : Attr} {v : Value} (hl : lookupA g k = some a) (hv : getV kind a = .ok v) :
    _connect_func false k kind i g = (none, setA i k v, g) := by
  rw [connect_func_false_eq hl]
  unfold forwardStep
  rw [hv]

theorem connect_func_true_ok {k : String} {kind : Kind} {i : Inputs} {g : Gui}
    {a : Attr} {st : WidgetState} (hl : lookupA g k = some a)
    (hd : directWrite k kind i a = .ok st) :
    _connect_func true k kind i g = (none, i, setA g k { a with state := st }) := by
  rw [connect_func_true_eq hl]
  unfold reverseStep
  rw [hd]

theorem reverseStep_direct_err {k : String} {kind : Kind} {i : Inputs}
    {g : Gui} {a : Attr} {e : PyError} (hd : directWrite k kind i a = .error e) :
    reverseStep k kind i g a =
      (if e.isTypeError then
         match retryWrite k kind i a with
         | .ok st => (none, i, setA g k { a with state := st })
         | .error e2 => (some e2, i, g)
       else (some e, i, g)) := by
  unfold reverseStep
  rw [hd]

theorem connect_func_true_direct_err {k : String} {kind : Kind} {i : Inputs}
    {g : Gui} {a : Attr} {e : PyError} (hl : lookupA g k = some a)
    (hd : directWrite k kind i a = .error e) (ht : e.isTypeError = false) :
    _connect_func true k kind i g = (some e, i, g) := by
  rw [connect_func_true_eq hl, reverseStep_direct_err hd, ht]
  rfl

theorem connect_func_true_retry_ok {k : String} {kind : Kind} {i : Inputs}
    {g : Gui} {a : Attr} {e : PyError} {st : WidgetState}
    (hl : lookupA g k = some a) (hd : directWrite k kind i a = .error e)
    (ht : e.isTypeError = true) (hr : retryWrite k kind i a = .ok st) :
    _connect_func true k kind i g = (none, i, setA g k { a with state := st }) := by
  rw [connect_func_true_eq hl, reverseStep_direct_err hd, ht, hr]
  rfl

theorem connect_func_true_retry_err {k : String} {kind : Kind} {i : Inputs}
    {g : Gui} {a : Attr} {e e2 : PyError}
    (hl : lookupA g k = some a) (hd : directWrite k kind i a = .error e)
    (ht : e.isTypeError = true) (hr : retryWrite k kind i a = .error e2) :
    _connect_func true k kind i g = (some e2, i, g) := by
  rw [connect_func_true_eq hl, reverseStep_direct_err hd, ht, hr]
  rfl

theorem connect_func_false_cases (k : String) (kind : Kind) (i : Inputs) (g : Gui) :
    (∃ e, _connect_func false k kind i g = (some e, i, g)) ∨
    (∃ v, _connect_func false k kind i g = (none, setA i k v, g)) := by
  cases hl : lookupA g k with
  | none =>
    refine Or.inl ⟨.nameError k, ?_⟩
    unfold _connect_func
    rw [hl]
  | some a =>
    cases hv : getV kind a with
    | error e =>
      refine Or.inl ⟨e, ?_⟩
      rw [connect_func_false_eq hl]
      unfold forwardStep
      rw [hv]
    | ok v =>
      refine Or.inr ⟨v, ?_⟩
      rw [connect_func_false_eq hl]
      unfold forwardStep
      rw [hv]

theorem connect_func_true_cases (k : String) (kind : Kind) (i : Inputs) (g : Gui) :
    (∃ e, _connect_func true k kind i g = (some e, i, g)) ∨
    (∃ a st, lookupA g k = some a ∧
      _connect_func true k kind i g = (none, i, setA g k { a with state := st })) := by
  cases hl : lookupA g k with
  | none =>
    refine Or.inl ⟨.nameError k, ?_⟩
    unfold _connect_func
    rw [hl]
  | some a =>
    cases hd : directWrite k kind i a with
    | ok st => exact Or.inr ⟨a, st, rfl, connect_func_true_ok hl hd⟩
    | error e =>
      cases ht : e.isTypeError with
      | false => exact Or.inl ⟨e, connect_func_true_direct_err hl hd ht⟩
      | true =>
        cases hr : retryWrite k kind i a with
        | ok st => exact Or.inr ⟨a, st, rfl, connect_func_true_retry_ok hl hd ht hr⟩
        | error e2 => exact Or.inl ⟨e2, connect_func_true_retry_err hl hd ht hr⟩

theorem runConnects_nil (rev : Bool) (i : Inputs) (g : Gui) :
    runConnects rev [] i g = (none, i, g) := rfl

theorem runConnects_cons (rev : Bool) (k : String) (kind : Kind) (rest : FuncDict)
    (i : Inputs) (g : Gui) :
    runConnects rev ((k, kind) :: rest) i g =
      (match _connect_func rev k kind i g with
       | (some e, i2, g2) => (some e, i2, g2)
       | (none, i2, g2) => runConnects rev rest i2 g2) := rfl

theorem runConnects_append (rev : Bool) (d₁ d₂ : FuncDict) (i : Inputs) (g : Gui) :
    runConnects rev (d₁ ++ d₂) i g =
      (match runConnects rev d₁ i g with
       | (none, i2, g2) => runConnects rev d₂ i2 g2
       | (some e, i2, g2) => (some e, i2, g2)) := by
  induction d₁ generalizing i g with
  | nil => rfl
  | cons p rest ih =>
    obtain ⟨k, kind⟩ := p
    rw [List.cons_append, runConnects_cons, runConnects_cons]
    cases hstep : _connect_func rev k kind i g with
    | mk err pr =>
      obtain ⟨i2, g2⟩ := pr
      cases err with
      | none => exact ih i2 g2
      | some e => rfl

theorem runConnects_true_inputs_frame {d : FuncDict} {i : Inputs} {g : Gui}
    {r : Option PyError} {i2 : Inputs} {g2 : Gui}
    (h : runConnects true d i g = (r, i2, g2)) : i2 = i := by
  induction d generalizing g with
  | nil => exact (triple_parts h).2.1.symm
  | cons p rest ih =>
    obtain ⟨k, kind⟩ := p
    rw [runConnects_cons] at h
    rcases connect_func_true_cases k kind i g with ⟨e, hstep⟩ | ⟨a, st, hl, hstep⟩
    · rw [hstep] at h
      exact (triple_parts h).2.1.symm
    · rw [hstep] at h
      exact ih h

theorem runConnects_false_frame {d : FuncDict} {i : Inputs} {g : Gui}
    {r : Option PyError} {i2 : Inputs} {g2 : Gui}
    (h : runConnects false d i g = (r, i2, g2)) :
    g2 = g ∧ ∀ k', k' ∉ d.map Prod.fst → lookupA i2 k' = lookupA i k' := by
  induction d generalizing i with
  | nil =>
    obtain ⟨-, h2, h3⟩ := triple_parts h
    subst h2
    subst h3
    exact ⟨rfl, fun _ _ => rfl⟩
  | cons p rest ih =>
    obtain ⟨k, kind⟩ := p
    rw [runConnects_cons] at h
    rcases connect_func_false_cases k kind i g with ⟨e, hstep⟩ | ⟨v, hstep⟩
    · rw [hstep] at h
      obtain ⟨-, h2, h3⟩ := triple_parts h
      subst h2
      subst h3
      exact ⟨rfl, fun _ _ => rfl⟩
    · rw [hstep] at h
      obtain ⟨hg, hframe⟩ := ih h
      refine ⟨hg, fun k' hk' => ?_⟩
      have hk1 : k' ≠ k := fun hh => hk' (by simp [hh])
      have hk2 : k' ∉ rest.map Prod.fst := fun hh => hk' (by simp [hh])
      rw [hframe k' hk2, lookupA_setA_ne i v hk1]

theorem runConnects_false_ok (d : FuncDict) :
    ∀ (i : Inputs) (g : Gui), (d.map Prod.fst).Nodup →
    (∀ p ∈ d, ∃ a, lookupA g p.1 = some a ∧ kindMatchesB p.2 a.state = true) →
    ∃ i2, runConnects false d i g = (none, i2, g) ∧
      (∀ p ∈ d, ∃ a v, lookupA g p.1 = some a ∧ getV p.2 a = .ok v ∧
        lookupA i2 p.1 = some v) ∧
      (∀ k', k' ∉ d.map Prod.fst → lookupA i2 k' = lookupA i k') := by
  induction d with
  | nil =>
    intro i g _ _
    exact ⟨i, rfl, by simp, fun _ _ => rfl⟩
  | cons p rest ih =>
    intro i g hnd hc
    obtain ⟨k, kind⟩ := p
    obtain ⟨a, hl, hm⟩ := hc (k, kind) (List.mem_cons_self _ _)
    obtain ⟨v, hv⟩ := getV_ok_of_matches hm
    simp only [List.map_cons, List.nodup_cons] at hnd
    obtain ⟨hk, hnd2⟩ := hnd
    obtain ⟨i2, hrun, hvals, hframe⟩ := ih (setA i k v) g hnd2
      (fun q hq => hc q (List.mem_cons_of_mem _ hq))
    refine ⟨i2, ?_, ?_, ?_⟩
    · rw [runConnects_cons, connect_func_false_ok hl hv]
      exact hrun
    · intro q hq
      rcases List.mem_cons.mp hq with rfl | hq'
      · refine ⟨a, v, hl, hv, ?_⟩
        show lookupA i2 k = some v
        rw [hframe k hk, lookupA_setA_self]
      · exact hvals q hq'
    · intro k' hk'
      simp only [List.map_cons, List.mem_cons, not_or] at hk'
      obtain ⟨hk1, hk2⟩ := hk'
      rw [hframe k' hk2, lookupA_setA_ne i v hk1]

theorem runConnects_true_ok (d : FuncDict) :
    ∀ (g : Gui) (i : Inputs), (d.map Prod.fst).Nodup →
    (∀ p ∈ d, ∃ a v, lookupA g p.1 = some a ∧ kindMatchesB p.2 a.state = true ∧
      a.state.soundStateB = true ∧ getV p.2 a = .ok v ∧ lookupA i p.1 = some v) →
    ∃ g2, runConnects true d i g = (none, i, g2) ∧
      (∀ p ∈ d, ∃ a a2, lookupA g p.1 = some a ∧ lookupA g2 p.1 = some a2 ∧
        getV p.2 a2 = getV p.2 a) ∧
      (∀ k', k' ∉ d.map Prod.fst → lookupA g2 k' = lookupA g k') := by
  induction d with
  | nil =>
    intro g i _ _
    exact ⟨g, rfl, by simp, fun _ _ => rfl⟩
  | cons p rest ih =>
    intro g i hnd hc
    obtain ⟨k, kind⟩ := p
    obtain ⟨a, v, hl, hm, hs, hv, hiv⟩ := hc (k, kind) (List.mem_cons_self _ _)
    obtain ⟨st2, hset, hget2, hm2, hs2⟩ := setV_getV_roundtrip hm hs hv
    have hd : directWrite k kind i a = .ok st2 := by
      rw [directWrite_eq hm, hiv]
      exact hset
    have hstep := connect_func_true_ok hl hd
    simp only [List.map_cons, List.nodup_cons] at hnd
    obtain ⟨hk, hnd2⟩ := hnd
    have hc2 : ∀ q ∈ rest, ∃ a' v',
        lookupA (setA g k { a with state := st2 }) q.1 = some a' ∧
        kindMatchesB q.2 a'.state = true ∧ a'.state.soundStateB = true ∧
        getV q.2 a' = .ok v' ∧ lookupA i q.1 = some v' := by
      intro q hq
      obtain ⟨a', v', hl', hm', hs', hv', hiv'⟩ := hc q (List.mem_cons_of_mem _ hq)
      have hq1 : q.1 ≠ k := fun hh => hk (hh ▸ List.mem_map_of_mem Prod.fst hq)
      refine ⟨a', v', ?_, hm', hs', hv', hiv'⟩
      rw [lookupA_setA_ne g _ hq1]
      exact hl'
    obtain ⟨g2, hrun, hvals, hframe⟩ := ih (setA g k { a with state := st2 }) i hnd2 hc2
    refine ⟨g2, ?_, ?_, ?_⟩
    · rw [runConnects_cons, hstep]
      exact hrun
    · intro q hq
      rcases List.mem_cons.mp hq with rfl | hq'
      · refine ⟨a, { a with state := st2 }, hl, ?_, ?_⟩
        · show lookupA g2 k = some { a with state := st2 }
          rw [hframe k hk, lookupA_setA_self]
        · show getV kind { a with state := st2 } = getV kind a
          rw [hget2, hv]
      · obtain ⟨a', a2', hl', hl2', hgv⟩ := hvals q hq'
        have hq1 : q.1 ≠ k := fun hh => hk (hh ▸ List.mem_map_of_mem Prod.fst hq')
        rw [lookupA_setA_ne g _ hq1] at hl'
        exact ⟨a', a2', hl', hl2', hgv⟩
    · intro k' hk'
      simp only [List.map_cons, List.mem_cons, not_or] at hk'
      obtain ⟨hk1, hk2⟩ := hk'
      rw [hframe k' hk2, lookupA_setA_ne g _ hk1]

/-- C1: for a widget container whose accessor table has N entries (one per
supported widget), each widget carrying a distinct initial value, calling
fields_to_inputs() and then immediately inputs_to_fields() restores every
widget to exactly its original (observed) value. -/
theorem fields_inputs_round_trip (gui : Gui) (inputs : Inputs) (d : FuncDict)
    (hkeys : (gui.map Prod.fst).Nodup)
    (hsound : ∀ p ∈ gui, Attr.soundB p.2 = true)
    (htable : _connect_gui gui = .ok d)
    (_hdistinct : (d.map fun p => observedValue gui p.1 p.2).Nodup) :
    ∃ inputs₁ gui₂,
      fields_to_inputs d inputs gui = (none, inputs₁, gui) ∧
      inputs_to_fields d inputs₁ gui = (none, inputs₁, gui₂) ∧
      ∀ p ∈ d, observedValue gui₂ p.1 p.2 = observedValue gui p.1 p.2 := by
  have hdnd : (d.map Prod.fst).Nodup :=
    List.Nodup.sublist (connect_gui_keys_sublist htable) hkeys
  have hcompat : ∀ p ∈ d, ∃ a, lookupA gui p.1 = some a ∧
      kindMatchesB p.2 a.state = true ∧ a.state.soundStateB = true := by
    intro p hp
    obtain ⟨a, hmem, hcl⟩ := connect_gui_mem htable p hp
    have hl := lookupA_eq_some_of_mem hkeys hmem
    obtain ⟨hm, hs⟩ := sound_matches (hsound (p.1, a) hmem) hcl
    exact ⟨a, hl, hm, hs⟩
  obtain ⟨i1, hrun1, hvals1, _⟩ := runConnects_false_ok d inputs gui hdnd
    (fun p hp => (hcompat p hp).imp fun a h => ⟨h.1, h.2.1⟩)
  have hc2 : ∀ p ∈ d, ∃ a v, lookupA gui p.1 = some a ∧
      kindMatchesB p.2 a.state = true ∧ a.state.soundStateB = true ∧
      getV p.2 a = .ok v ∧ lookupA i1 p.1 = some v := by
    intro p hp
    obtain ⟨a, hl, hm, hs⟩ := hcompat p hp
    obtain ⟨a', v, hl', hv', hi⟩ := hvals1 p hp
    rw [hl] at hl'
    cases hl'
    exact ⟨a, v, hl, hm, hs, hv', hi⟩
  obtain ⟨g2, hrun2, hvals2, _⟩ := runConnects_true_ok d gui i1 hdnd hc2
  refine ⟨i1, g2, hrun1, hrun2, ?_⟩
  intro p hp
  obtain ⟨a, a2, hl, hl2, hgv⟩ := hvals2 p hp
  unfold observedValue
  rw [hl, hl2]
  simp only [Option.map_some', Option.some.injEq]
  exact hgv

/-- Witness for C1 at a concrete four-widget container with distinct
values. -/
theorem fields_inputs_round_trip_witness :
    ∃ inputs₁ gui₂,
      fields_to_inputs dictSample [] guiSample = (none, inputs₁, guiSample) ∧
      inputs_to_fields dictSample inputs₁ guiSample = (none, inputs₁, gui₂) ∧
      ∀ p ∈ dictSample, observedValue gui₂ p.1 p.2 = observedValue guiSample p.1 p.2 :=
  fields_inputs_round_trip guiSample [] dictSample
    (by decide) (by decide) (by decide) (by decide)

/-- C2: during inputs_to_fields(), when the data holder carries the string
"True" for a boolean-toggle entry, the direct write fails with the setter's
TypeError, the handler evaluates the string and retries once, and the toggle
ends up checked instead of the call failing. -/
theorem coercion_fallback_sets_toggle (d₁ d₂ : FuncDict) (k : String)
    (inputs i₁ : Inputs) (gui g₁ : Gui) (a : Attr) (b : Bool)
    (h1 : runConnects true d₁ inputs gui = (none, i₁, g₁))
    (h2 : lookupA g₁ k = some a)
    (h3 : a.state = .checkBox b)
    (h4 : lookupA inputs k = some (.str "True")) :
    setV .qCheckBox a (.str "True") = .error (.typeError "setChecked" "str") ∧
    ∃ g₂, inputs_to_fields (d₁ ++ (k, .qCheckBox) :: d₂) inputs gui
        = runConnects true d₂ inputs g₂ ∧
      lookupA g₂ k = some { a with state := .checkBox true } := by
  have hi : i₁ = inputs := runConnects_true_inputs_frame h1
  subst hi
  obtain ⟨tn, st⟩ := a
  simp only at h3
  subst h3
  have hm : kindMatchesB .qCheckBox (WidgetState.checkBox b) = true := rfl
  have hsv : setV .qCheckBox ⟨tn, .checkBox b⟩ (.str "True")
      = .error (.typeError "setChecked" "str") := rfl
  refine ⟨hsv, ?_⟩
  have hd : directWrite k .qCheckBox i₁ ⟨tn, .checkBox b⟩
      = .error (.typeError "setChecked" "str") := by
    rw [directWrite_eq hm, h4]
    rfl
  have hr : retryWrite k .qCheckBox i₁ ⟨tn, .checkBox b⟩
      = .ok (.checkBox true) := by
    rw [retryWrite_eq hm, h4]
    rfl
  have hstep := connect_func_true_retry_ok h2 hd rfl hr
  refine ⟨setA g₁ k ⟨tn, .checkBox true⟩, ?_, ?_⟩
  · unfold inputs_to_fields
    rw [runConnects_append, h1]
    show runConnects true ((k, .qCheckBox) :: d₂) i₁ g₁ = _
    rw [runConnects_cons, hstep]
  · rw [lookupA_setA_self]

/-- Witness for C2: a single checkbox entry, data holder holding the string
"True", toggle initially unchecked. -/
theorem coercion_fallback_sets_toggle_witness :
    setV .qCheckBox ⟨"QCheckBox", .checkBox false⟩ (.str "True")
      = .error (.typeError "setChecked" "str") ∧
    ∃ g₂, inputs_to_fields ([] ++ ("flag", .qCheckBox) :: [])
        [("flag", .str "True")] [("flag", ⟨"QCheckBox", .checkBox false⟩)]
        = runConnects true [] [("flag", .str "True")] g₂ ∧
      lookupA g₂ "flag" = some ⟨"QCheckBox", .checkBox true⟩ :=
  coercion_fallback_sets_toggle [] [] "flag" [("flag", .str "True")]
    [("flag", .str "True")] [("flag", ⟨"QCheckBox", .checkBox false⟩)]
    [("flag", ⟨"QCheckBox", .checkBox false⟩)] ⟨"QCheckBox", .checkBox false⟩ false
    (by decide) (by decide) (by decide) (by decide)

/-- C3: when inputs_to_fields() reaches a table entry whose name is missing
from the data holder, the read of that attribute raises `AttributeError`
(the MissingFieldError of the spec) naming the widget, the `except
TypeError` clause does not catch it, and it aborts the bulk call,
propagating to the caller. -/
theorem missing_field_error_propagates (d₁ d₂ : FuncDict) (k : String)
    (kind : Kind) (inputs i₁ : Inputs) (gui g₁ : Gui) (a : Attr)
    (h1 : runConnects true d₁ inputs gui = (none, i₁, g₁))
    (h2 : lookupA inputs k = none)
    (h3 : lookupA g₁ k = some a)
    (h4 : kindMatchesB kind a.state = true) :
    inputs_to_fields (d₁ ++ (k, kind) :: d₂) inputs gui
      = (some (.attributeError "Inputs" k), inputs, g₁) := by
  have hi : i₁ = inputs := runConnects_true_inputs_frame h1
  subst hi
  have hd : directWrite k kind i₁ a = .error (.attributeError "Inputs" k) := by
    rw [directWrite_eq h4, h2]
  have hstep := connect_func_true_direct_err h3 hd rfl
  unfold inputs_to_fields
  rw [runConnects_append, h1]
  show runConnects true ((k, kind) :: d₂) i₁ g₁ = _
  rw [runConnects_cons, hstep]

/-- Witness for C3: a checkbox entry whose name is absent from the data
holder. -/
theorem missing_field_error_propagates_witness :
    inputs_to_fields ([] ++ ("flag", .qCheckBox) :: []) []
        [("flag", ⟨"QCheckBox", .checkBox true⟩)]
      = (some (.attributeError "Inputs" "flag"), [],
         [("flag", ⟨"QCheckBox", .checkBox true⟩)]) :=
  missing_field_error_propagates [] [] "flag" .qCheckBox [] []
    [("flag", ⟨"QCheckBox", .checkBox true⟩)]
    [("flag", ⟨"QCheckBox", .checkBox true⟩)] ⟨"QCheckBox", .checkBox true⟩
    (by decide) (by decide) (by decide) (by decide)

/-- C4: construction never places an entry in the accessor table for an
attribute whose name starts with the exclusion marker (a leading
underscore), regardless of the attribute's runtime kind: every key of a
successfully built table has a first character other than the underscore. -/
theorem underscore_keys_excluded (gui : Gui) :
    ∀ d : FuncDict, _connect_gui gui = .ok d →
    ∀ p ∈ d, p.1.data.head? ≠ some '_' := by
  induction gui with
  | nil =>
    intro d hok
    simp only [_connect_gui, Except.ok.injEq] at hok
    subst hok
    simp
  | cons q rest ih =>
    intro d hok
    obtain ⟨key, item⟩ := q
    cases hkd : key.data with
    | nil => rw [connect_gui_cons_empty key item rest hkd] at hok; cases hok
    | cons c cs =>
      rw [connect_gui_cons_eq key item rest hkd] at hok
      by_cases hc : c = '_'
      · rw [if_pos hc] at hok
        exact ih d hok
      · rw [if_neg hc] at hok
        cases hcl : classifyName item.typeName with
        | none =>
          rw [hcl] at hok
          exact ih d hok
        | some kind =>
          rw [hcl] at hok
          cases hrec : _connect_gui rest with
          | error e => rw [hrec] at hok; cases hok
          | ok d' =>
            rw [hrec] at hok
            simp only [Except.ok.injEq] at hok
            subst hok
            intro p hp
            rcases List.mem_cons.mp hp with rfl | hp'
            · show key.data.head? ≠ some '_'
              rw [hkd]
              simp only [List.head?_cons, ne_eq, Option.some.injEq]
              exact hc
            · exact ih d' hrec p hp'

/-- Witness for C4: a container with an underscore-named checkbox; the built
table contains only the other key. -/
theorem underscore_keys_excluded_witness :
    ("flag", Kind.qCheckBox).1.data.head? ≠ some '_' :=
  underscore_keys_excluded
    [("_hidden", ⟨"QCheckBox", .checkBox true⟩), ("flag", ⟨"QCheckBox", .checkBox false⟩)]
    [("flag", .qCheckBox)] (by decide) ("flag", .qCheckBox) (by decide)

/-- C5: an attribute whose runtime kind is outside the four supported kinds
is silently omitted: construction gives the same result (table or error)
with or without it, and it is never a key of the table. -/
theorem unsupported_kind_silently_omitted (g₁ g₂ : Gui) (key : String) (a : Attr)
    (hne : key.data ≠ []) (hcl : classifyName a.typeName = none)
    (hnk : key ∉ (g₁ ++ g₂).map Prod.fst) :
    _connect_gui (g₁ ++ (key, a) :: g₂) = _connect_gui (g₁ ++ g₂) ∧
    ∀ d, _connect_gui (g₁ ++ (key, a) :: g₂) = .ok d → key ∉ d.map Prod.fst := by
  have heq := connect_gui_skip_middle g₁ g₂ key a hne hcl
  refine ⟨heq, fun d hok hmem => ?_⟩
  rw [heq] at hok
  exact hnk ((connect_gui_keys_sublist hok).subset hmem)

/-- Witness for C5: a label-like attribute of unsupported kind between two
supported widgets. -/
theorem unsupported_kind_silently_omitted_witness :
    _connect_gui ([("name", ⟨"QLineEdit", .lineEdit "alice"⟩)]
        ++ ("banner", ⟨"QLabel", .nonInput⟩) :: [("flag", ⟨"QCheckBox", .checkBox true⟩)])
      = _connect_gui ([("name", ⟨"QLineEdit", .lineEdit "alice"⟩)]
        ++ [("flag", ⟨"QCheckBox", .checkBox true⟩)]) ∧
    ∀ d, _connect_gui ([("name", ⟨"QLineEdit", .lineEdit "alice"⟩)]
        ++ ("banner", ⟨"QLabel", .nonInput⟩) :: [("flag", ⟨"QCheckBox", .checkBox true⟩)])
      = .ok d → "banner" ∉ d.map Prod.fst :=
  unsupported_kind_silently_omitted
    [("name", ⟨"QLineEdit", .lineEdit "alice"⟩)]
    [("flag", ⟨"QCheckBox", .checkBox true⟩)]
    "banner" ⟨"QLabel", .nonInput⟩ (by decide) (by decide) (by decide)

/-- C6: widget-kind classification compares the exact runtime type name with
the four supported names; an attribute that behaves like one of the four
kinds (e.g. an instance of a strict subclass, whose type name differs) is
not recognized and gets no entry in the accessor table. -/
theorem exact_type_name_dispatch (gui : Gui) (d : FuncDict) (key : String)
    (a : Attr) (k₀ : Kind)
    (hnd : (gui.map Prod.fst).Nodup)
    (hmem : (key, a) ∈ gui)
    (_hcap : kindMatchesB k₀ a.state = true)
    (h1 : a.typeName ≠ "QLineEdit") (h2 : a.typeName ≠ "QComboBox")
    (h3 : a.typeName ≠ "QSpinBox") (h4 : a.typeName ≠ "QCheckBox")
    (hok : _connect_gui gui = .ok d) :
    (∀ t kind, classifyName t = some kind → t = kind.className) ∧
    classifyName a.typeName = none ∧
    ∀ kind, (key, kind) ∉ d := by
  refine ⟨fun t kind h => (classifyName_eq_some_iff t kind).1 h,
    classifyName_none_of_ne _ h1 h2 h3 h4, fun kind hmem' => ?_⟩
  obtain ⟨a', hmem2, hcl'⟩ := connect_gui_mem hok (key, kind) hmem'
  have ha : a' = a := mem_unique_of_nodup_keys hnd hmem2 hmem
  rw [ha, classifyName_none_of_ne _ h1 h2 h3 h4] at hcl'
  cases hcl'

/-- Witness for C6: a toggle-capable attribute of type name "MyCheckBox"
(the type name a strict subclass of QCheckBox would carry) is excluded,
while the exact-named checkbox is kept. -/
theorem exact_type_name_dispatch_witness :
    (∀ t kind, classifyName t = some kind → t = kind.className) ∧
    classifyName "MyCheckBox" = none ∧
    ∀ kind, ("special", kind) ∉ [("flag", Kind.qCheckBox)] :=
  exact_type_name_dispatch
    [("special", ⟨"MyCheckBox", .checkBox true⟩), ("flag", ⟨"QCheckBox", .checkBox false⟩)]
    [("flag", .qCheckBox)] "special" ⟨"MyCheckBox", .checkBox true⟩ .qCheckBox
    (by decide) (by decide) (by decide) (by decide) (by decide) (by decide) (by decide)
    (by decide)

/-- C7: inputs_to_fields() is non-atomic and aborts at the first unrecovered
failure: after the entries of the prefix `d₁` ran successfully (their widget
writes retained in `g₁`), a failing entry makes the whole call return that
failure with the states reached at the raise point, and no entry of the
remaining suffix `d₂` is processed (the result does not depend on `d₂`). -/
theorem inputs_to_fields_aborts_at_first_failure (d₁ d₂ : FuncDict) (k : String)
    (kind : Kind) (inputs i₁ i₂ : Inputs) (gui g₁ g₂ : Gui) (e : PyError)
    (h1 : runConnects true d₁ inputs gui = (none, i₁, g₁))
    (h2 : _connect_func true k kind i₁ g₁ = (some e, i₂, g₂)) :
    inputs_to_fields (d₁ ++ (k, kind) :: d₂) inputs gui = (some e, i₂, g₂) := by
  unfold inputs_to_fields
  rw [runConnects_append, h1]
  show runConnects true ((k, kind) :: d₂) i₁ g₁ = _
  rw [runConnects_cons, h2]

/-- Witness for C7: the first entry writes "bob" into the text widget, the
second entry fails (the stored string "nope" survives neither the direct
write nor the eval retry), the third entry is never written: the spin box
keeps its value and the result carries the state after the first write. -/
theorem inputs_to_fields_aborts_at_first_failure_witness :
    inputs_to_fields
        ([("name", .qLineEdit)] ++ ("flag", .qCheckBox) :: [("retries", .qSpinBox)])
        [("name", .str "bob"), ("flag", .str "nope")]
        [("name", ⟨"QLineEdit", .lineEdit "alice"⟩),
         ("flag", ⟨"QCheckBox", .checkBox false⟩),
         ("retries", ⟨"QSpinBox", .spinBox 3 0 99⟩)]
      = (some (.nameError "nope"),
         [("name", .str "bob"), ("flag", .str "nope")],
         [("name", ⟨"QLineEdit", .lineEdit "bob"⟩),
          ("flag", ⟨"QCheckBox", .checkBox false⟩),
          ("retries", ⟨"QSpinBox", .spinBox 3 0 99⟩)]) :=
  inputs_to_fields_aborts_at_first_failure [("name", .qLineEdit)] [("retries", .qSpinBox)]
    "flag" .qCheckBox
    [("name", .str "bob"), ("flag", .str "nope")]
    [("name", .str "bob"), ("flag", .str "nope")]
    [("name", .str "bob"), ("flag", .str "nope")]
    [("name", ⟨"QLineEdit", .lineEdit "alice"⟩),
     ("flag", ⟨"QCheckBox", .checkBox false⟩),
     ("retries", ⟨"QSpinBox", .spinBox 3 0 99⟩)]
    [("name", ⟨"QLineEdit", .lineEdit "bob"⟩),
     ("flag", ⟨"QCheckBox", .checkBox false⟩),
     ("retries", ⟨"QSpinBox", .spinBox 3 0 99⟩)]
    [("name", ⟨"QLineEdit", .lineEdit "bob"⟩),
     ("flag", ⟨"QCheckBox", .checkBox false⟩),
     ("retries", ⟨"QSpinBox", .spinBox 3 0 99⟩)]
    (.nameError "nope") (by decide) (by decide)

/-- C8 counterexample: the claim says the propagated failure names the
widget and the offending value. In the run below the data holder carries the
quoted string literal for "abc"; the direct `setValue` raises `TypeError`,
`eval` yields the string "abc", the retried `setValue` raises `TypeError`
again and that error propagates — but it carries only the setter method and
the offending argument's type: it names neither the widget's attribute name
"retries" nor the value "abc". -/
theorem retry_failure_error_content_cex :
    (inputs_to_fields [("retries", .qSpinBox)]
        [("retries", .str (quoted "abc"))]
        [("retries", ⟨"QSpinBox", .spinBox 3 0 99⟩)]).1
      = some (.typeError "setValue" "str") ∧
    setV .qSpinBox ⟨"QSpinBox", .spinBox 3 0 99⟩ (.str (quoted "abc"))
      = .error (.typeError "setValue" "str") ∧
    pyEval (.str (quoted "abc")) = .ok (.str "abc") ∧
    setV .qSpinBox ⟨"QSpinBox", .spinBox 3 0 99⟩ (.str "abc")
      = .error (.typeError "setValue" "str") ∧
    PyError.mentionsB (.typeError "setValue" "str") "retries" = false ∧
    PyError.mentionsB (.typeError "setValue" "str") "abc" = false := by
  decide

/-- C8 (amended): when the single parse-and-retry write also fails, the
failure propagates unchanged to the caller as the widget setter's
type-mismatch error, which names the setter method and the type of the
offending value (not the widget's attribute name or the value itself). -/
theorem retry_failure_propagates_setter_error (k : String) (kind : Kind)
    (inputs : Inputs) (gui : Gui) (a : Attr) (v v2 : Value) (e e2 : PyError)
    (hl : lookupA gui k = some a)
    (hm : kindMatchesB kind a.state = true)
    (hv : lookupA inputs k = some v)
    (hdirect : setV kind a v = .error e)
    (ht : e.isTypeError = true)
    (heval : pyEval v = .ok v2)
    (hretry : setV kind a v2 = .error e2) :
    _connect_func true k kind inputs gui = (some e2, inputs, gui) ∧
    e2 = .typeError kind.setMethod v2.typeName := by
  have hd : directWrite k kind inputs a = .error e := by
    rw [directWrite_eq hm, hv]
    exact hdirect
  have hr : retryWrite k kind inputs a = .error e2 := by
    rw [retryWrite_eq hm, hv]
    show (match pyEval v with
          | Except.error e3 => (Except.error e3 : Except PyError WidgetState)
          | Except.ok w => setV kind a w) = Except.error e2
    rw [heval]
    exact hretry
  exact ⟨connect_func_true_retry_err hl hd ht hr, setV_error_shape hm hretry⟩

/-- Witness for the amended C8 at the counterexample's input. -/
theorem retry_failure_propagates_setter_error_witness :
    _connect_func true "retries" .qSpinBox
        [("retries", .str (quoted "abc"))]
        [("retries", ⟨"QSpinBox", .spinBox 3 0 99⟩)]
      = (some (.typeError "setValue" "str"),
         [("retries", .str (quoted "abc"))],
         [("retries", ⟨"QSpinBox", .spinBox 3 0 99⟩)]) ∧
    PyError.typeError "setValue" "str"
      = .typeError (Kind.setMethod .qSpinBox) (Value.str "abc").typeName :=
  retry_failure_propagates_setter_error "retries" .qSpinBox
    [("retries", .str (quoted "abc"))]
    [("retries", ⟨"QSpinBox", .spinBox 3 0 99⟩)]
    ⟨"QSpinBox", .spinBox 3 0 99⟩ (.str (quoted "abc")) (.str "abc")
    (.typeError "setValue" "str") (.typeError "setValue" "str")
    (by decide) (by decide) (by decide) (by decide) (by decide) (by decide) (by decide)

/-- C9: the parse-and-retry fallback runs only when the direct write attempt
raised a TypeError; a direct-write failure of any other class propagates to
the caller immediately, with no retry and no widget mutation. -/
theorem retry_only_after_type_mismatch (k : String) (kind : Kind) (inputs : Inputs)
    (gui : Gui) (a : Attr) (e : PyError)
    (hl : lookupA gui k = some a)
    (he : directWrite k kind inputs a = .error e) :
    (e.isTypeError = false →
      _connect_func true k kind inputs gui = (some e, inputs, gui)) ∧
    (e.isTypeError = true →
      _connect_func true k kind inputs gui =
        (match retryWrite k kind inputs a with
         | .ok st => (none, inputs, setA gui k { a with state := st })
         | .error e2 => (some e2, inputs, gui))) := by
  refine ⟨fun ht => connect_func_true_direct_err hl he ht, fun ht => ?_⟩
  cases hr : retryWrite k kind inputs a with
  | ok st => exact connect_func_true_retry_ok hl he ht hr
  | error e2 => exact connect_func_true_retry_err hl he ht hr

/-- Witness for C9: the direct write fails with AttributeError (missing
data-holder attribute), which is not a TypeError, so the error propagates
unchanged and the widget is untouched. -/
theorem retry_only_after_type_mismatch_witness :
    ((PyError.attributeError "Inputs" "flag").isTypeError = false →
      _connect_func true "flag" .qCheckBox []
          [("flag", ⟨"QCheckBox", .checkBox true⟩)]
        = (some (.attributeError "Inputs" "flag"), [],
           [("flag", ⟨"QCheckBox", .checkBox true⟩)])) ∧
    ((PyError.attributeError "Inputs" "flag").isTypeError = true →
      _connect_func true "flag" .qCheckBox []
          [("flag", ⟨"QCheckBox", .checkBox true⟩)]
        = (match retryWrite "flag" .qCheckBox [] ⟨"QCheckBox", .checkBox true⟩ with
           | .ok st => (none, [],
               setA [("flag", ⟨"QCheckBox", .checkBox true⟩)] "flag"
                 { typeName := "QCheckBox", state := st })
           | .error e2 => (some e2, [],
               [("flag", ⟨"QCheckBox", .checkBox true⟩)]))) :=
  retry_only_after_type_mismatch "flag" .qCheckBox []
    [("flag", ⟨"QCheckBox", .checkBox true⟩)]
    ⟨"QCheckBox", .checkBox true⟩ (.attributeError "Inputs" "flag")
    (by decide) (by decide)

/-- C10: fields_to_inputs() only reads widgets: whatever the outcome, the
widget container's state is unchanged, and the only mutation is the
assignment of data-holder attributes named by the table's entries. -/
theorem fields_to_inputs_leaves_widgets_unchanged (d : FuncDict) (inputs : Inputs)
    (gui : Gui) (r : Option PyError) (i2 : Inputs) (g2 : Gui)
    (h : fields_to_inputs d inputs gui = (r, i2, g2)) :
    g2 = gui ∧ ∀ k, k ∉ d.map Prod.fst → lookupA i2 k = lookupA inputs k :=
  runConnects_false_frame h

/-- Witness for C10 on the sample container: the container is returned
unchanged and non-table names keep their data-holder bindings. -/
theorem fields_to_inputs_leaves_widgets_unchanged_witness :
    guiSample = guiSample ∧
    ∀ k, k ∉ dictSample.map Prod.fst →
      lookupA [("other", Value.int 7), ("name", .str "alice"), ("choice", .str "b"),
        ("retries", .int 3), ("flag", .bool true)] k
        = lookupA [("other", Value.int 7)] k :=
  fields_to_inputs_leaves_widgets_unchanged dictSample [("other", .int 7)] guiSample
    none
    [("other", Value.int 7), ("name", .str "alice"), ("choice", .str "b"),
     ("retries", .int 3), ("flag", .bool true)]
    guiSample (by decide)
